import Mathlib

/-!
Verification of the Conway's-Game-of-Life 5x5 LED controller (`src/main.rs`).

Shallow embedding: the board is a function `Fin 5 → Fin 5 → Nat` (each cell a
u8 value, 0 = dead / 1 = alive); the hardware RNG is a stream `Nat → Nat` of
u32 draws together with a cursor counting draws consumed; a button pin is a
stream `Nat → Bool` of voltage samples (`true` = grounded) with a cursor
counting reads performed; `u32` arithmetic is `Nat` with explicit `% 2 ^ 32`
where overflow can occur.  The main event loop becomes an explicit step
function on a system state and a trace `sysAfter`.
-/

/-- The MB2 has 5 LED rows and 5 LED columns (`ROW_COUNT` in the source). -/
def ROW_COUNT : Nat := 5

/-- `LEDState`: the 5x5 array of u8 cell values, embedded as a function. -/
def LEDState : Type := Fin 5 → Fin 5 → Nat

/-- `REFRESH_RATE_MS` = 100. -/
def REFRESH_RATE_MS : Nat := 100

/-- `DEATH_RESET_RATE_MS` = 500. -/
def DEATH_RESET_RATE_MS : Nat := 500

/-- `COMPLEMENT_RESET_RATE_MS` = 500. -/
def COMPLEMENT_RESET_RATE_MS : Nat := 500

/-- The board written by `randomize_state` from one u32 draw `random_number`:
cell `(i / 5, i % 5)` receives `((random_number & (1 << i)) >> i) as u8`,
i.e. cell `(row, col)` receives bit `row * 5 + col`. -/
def randomBoard (random_number : Nat) : LEDState := fun row col =>
  (random_number &&& (1 <<< (row.val * 5 + col.val))) >>> (row.val * 5 + col.val)

/-- `fn randomize_state(&mut Rng, &mut LEDState)`: draws exactly one u32 from
the RNG stream (advancing the cursor by one) and fills the whole board from
its bits. -/
def randomize_state (rng : Nat → Nat) (idx : Nat) : LEDState × Nat :=
  (randomBoard (rng idx), idx + 1)

/-- `fn complement_state(&mut LEDState)`: XOR every cell's value with 1. -/
def complement_state (state : LEDState) : LEDState := fun row col =>
  state row col ^^^ 1

/-- `struct ResetTimer { total: u32, current: u32 }`. -/
structure ResetTimer where
  total : Nat
  current : Nat
  deriving DecidableEq, Repr

/-- `ResetTimer::new(frames, start)`. -/
def ResetTimer.new (frames start : Nat) : ResetTimer :=
  { total := frames, current := start }

/-- `ResetTimer::reset`: force `current = 0`. -/
def ResetTimer.reset (t : ResetTimer) : ResetTimer :=
  { t with current := 0 }

/-- `ResetTimer::finished`: `current == total`. -/
def ResetTimer.finished (t : ResetTimer) : Bool :=
  t.current == t.total

/-- `ResetTimer::tick(reset_if_finished)`: increment `current` (u32 wrapping),
clamp at `total`, return whether the timer is now expired, and reset when
expired and `reset_if_finished` holds.  Returns (result, updated timer). -/
def ResetTimer.tick (t : ResetTimer) (reset_if_finished : Bool) : Bool × ResetTimer :=
  let current := (t.current + 1) % 2 ^ 32
  let current := if current > t.total then t.total else current
  let is_done := current == t.total
  let t' : ResetTimer := { t with current := current }
  if is_done && reset_if_finished then (is_done, t'.reset) else (is_done, t')

/-- `n` successive calls to `tick b`, discarding the returned booleans. -/
def ResetTimer.tickIter (b : Bool) : Nat → ResetTimer → ResetTimer
  | 0, t => t
  | n + 1, t => ResetTimer.tickIter b n (t.tick b).2

/-- The u32 representation invariant of a timer together with the documented
state invariant `0 ≤ current ≤ total`. -/
def ResetTimer.wf (t : ResetTimer) : Prop :=
  t.current ≤ t.total ∧ t.total < 2 ^ 32

/-- `ButtonPress for P0_14` (button A): `is_low() & is_low() & is_low()` —
three pin reads are always performed (`&` is not short-circuiting), the
cursor advances by 3, and the result is the conjunction of the samples. -/
def pressed_P0_14 (samp : Nat → Bool) (i : Nat) : Bool × Nat :=
  ((samp i && samp (i + 1)) && samp (i + 2), i + 3)

/-- `ButtonPress for P0_23` (button B): identical body to the A-button
implementation, on its own pin. -/
def pressed_P0_23 (samp : Nat → Bool) (i : Nat) : Bool × Nat :=
  ((samp i && samp (i + 1)) && samp (i + 2), i + 3)

/-- Modelled from the spec: `life::done` lives in `src/life.rs`, which is not
in the repository sources; the spec says `is_terminal(board)` is "true iff
every cell is dead". -/
def life.done (state : LEDState) : Bool :=
  (List.finRange 5).all fun row => (List.finRange 5).all fun col => state row col == 0

/-- Modelled from the spec: helper for `life::life` (also in the missing
`src/life.rs`) — the number of live Moore neighbors of `(r, c)`, clipped at
the grid edges (no wraparound). -/
def life.neighborCount (state : LEDState) (r c : Fin 5) : Nat :=
  ((List.finRange 5).map fun r' =>
    ((List.finRange 5).filter fun c' =>
      decide (¬(r' = r ∧ c' = c) ∧ ((r' : Int) - (r : Int)).natAbs ≤ 1 ∧
        ((c' : Int) - (c : Int)).natAbs ≤ 1 ∧ state r' c' = 1)).length).sum

/-- Modelled from the spec: `life::life` lives in `src/life.rs`, which is not
in the repository sources; the spec says `step(board)` applies the standard
B3/S23 rule over the clipped 8-neighbor Moore neighborhood, computed from a
consistent snapshot of the current generation. -/
def life.life (state : LEDState) : LEDState := fun r c =>
  let n := life.neighborCount state r c
  if state r c = 1 then (if n = 2 ∨ n = 3 then 1 else 0)
  else (if n = 3 then 1 else 0)

/-- The state owned by the main event loop: the board, the two timers, and
the RNG cursor (number of u32 draws consumed so far). -/
structure Sys where
  state : LEDState
  reset_timer : ResetTimer
  complement_timer : ResetTimer
  rngIdx : Nat

/-- The if/else-if decision chain of the loop body in `main`, given the
frame's two debounced button readings (`btnA` = `button_a.pressed()`,
`btnB` = `button_b.pressed()`). -/
def branchStep (rng : Nat → Nat) (btnA btnB : Bool) (s : Sys) : Sys :=
  if btnA then
    let s := { s with reset_timer := s.reset_timer.reset }
    let r := randomize_state rng s.rngIdx
    { s with state := r.1, rngIdx := r.2 }
  else if btnB then
    let s := { s with reset_timer := s.reset_timer.reset }
    if s.complement_timer.finished then
      { s with state := complement_state s.state,
               complement_timer := s.complement_timer.reset }
    else s
  else if life.done s.state then
    let t := s.reset_timer.tick true
    let s := { s with reset_timer := t.2 }
    if t.1 then
      let r := randomize_state rng s.rngIdx
      { s with state := r.1, rngIdx := r.2 }
    else s
  else
    { s with reset_timer := s.reset_timer.reset, state := life.life s.state }

/-- One full loop-body update of the mutable state: the decision chain,
followed by the unconditional `complement_timer.tick(false)`. -/
def frameStep (rng : Nat → Nat) (btnA btnB : Bool) (s : Sys) : Sys :=
  let s := branchStep rng btnA btnB s
  { s with complement_timer := (s.complement_timer.tick false).2 }

/-- The trace of the event loop: `sysAfter rng btns s0 n` is the loop state at
the top of iteration `n` (just as `display.show` runs), starting from `s0`;
`btns n` is the pair of debounced button readings of iteration `n`. -/
def sysAfter (rng : Nat → Nat) (btns : Nat → Bool × Bool) (s0 : Sys) : Nat → Sys
  | 0 => s0
  | n + 1 => frameStep rng (btns n).1 (btns n).2 (sysAfter rng btns s0 n)

/-- The board handed to `display.show` at the top of loop iteration `n`. -/
def renderedBoard (rng : Nat → Nat) (btns : Nat → Bool × Bool) (s0 : Sys) (n : Nat) : LEDState :=
  (sysAfter rng btns s0 n).state

/-- The all-dead board. -/
def deadBoard : LEDState := fun _ _ => 0

/-- An RNG stream that always draws 0 (every randomize yields a dead board). -/
def rngZero : Nat → Nat := fun _ => 0

/-- Button inputs: neither button pressed on any frame. -/
def btnsNone : Nat → Bool × Bool := fun _ => (false, false)

/-- A system state with a dead board, the dead-reset timer freshly reset, and
the complement timer in its startup (already-finished) state. -/
def deadSys : Sys :=
  { state := deadBoard, reset_timer := ResetTimer.new 5 0,
    complement_timer := ResetTimer.new 5 5, rngIdx := 0 }

/-- The Section-8 scenario start state: terminal board, dead-reset timer one
tick from expiry (current=4/total=5), complement timer freshly reset
(current=0/total=5). -/
def scenario8 : Sys :=
  { state := deadBoard, reset_timer := ResetTimer.new 5 4,
    complement_timer := ResetTimer.new 5 0, rngIdx := 0 }

/-! ## Helper lemmas -/

theorem ResetTimer.tick_total (t : ResetTimer) (b : Bool) : (t.tick b).2.total = t.total := by
  simp only [ResetTimer.tick, ResetTimer.reset]
  split <;> first | rfl | (split <;> rfl)

theorem ResetTimer.tick_eq (t : ResetTimer) (b : Bool) (h : t.current + 1 < 2 ^ 32) :
    t.tick b = ((min (t.current + 1) t.total == t.total),
      { total := t.total,
        current := if (min (t.current + 1) t.total == t.total) && b then 0
                   else min (t.current + 1) t.total }) := by
  simp only [ResetTimer.tick, ResetTimer.reset]
  rw [Nat.mod_eq_of_lt h]
  rcases le_or_lt (t.current + 1) t.total with hle | hlt
  · have hcond : ¬(t.current + 1 > t.total) := by omega
    rw [if_neg hcond, min_eq_left hle]
    by_cases hb : ((t.current + 1 == t.total) && b) = true <;> simp [hb]
  · have hcond : t.current + 1 > t.total := hlt
    rw [if_pos hcond, min_eq_right (le_of_lt hlt)]
    cases b <;> simp

theorem ResetTimer.tick_current_le (t : ResetTimer) (b : Bool) :
    (t.tick b).2.current ≤ t.total := by
  simp only [ResetTimer.tick, ResetTimer.reset]
  rcases le_or_lt ((t.current + 1) % 2 ^ 32) t.total with hle | hlt
  · have hcond : ¬((t.current + 1) % 2 ^ 32 > t.total) := by omega
    rw [if_neg hcond]
    split <;> simp_all
  · have hcond : (t.current + 1) % 2 ^ 32 > t.total := hlt
    rw [if_pos hcond]
    split <;> simp_all

theorem ResetTimer.tickIter_le (b : Bool) (n : Nat) (t : ResetTimer)
    (h : t.current ≤ t.total) : (ResetTimer.tickIter b n t).current ≤ t.total := by
  induction n generalizing t with
  | zero => exact h
  | succ n ih =>
      have h1 : ((t.tick b).2).current ≤ (t.tick b).2.total := by
        rw [ResetTimer.tick_total]; exact t.tick_current_le b
      have h2 := ih (t.tick b).2 h1
      rw [ResetTimer.tick_total] at h2
      exact h2

theorem ResetTimer.tickIter_count (t c k : Nat) (hw : t < 2 ^ 32) (h : c + k ≤ t) :
    ResetTimer.tickIter false k (ResetTimer.new t c) = ResetTimer.new t (c + k) := by
  induction k generalizing c with
  | zero => rfl
  | succ k ih =>
      have hc1 : c + 1 ≤ t := by omega
      have hstep : ((ResetTimer.new t c).tick false).2 = ResetTimer.new t (c + 1) := by
        rw [ResetTimer.tick_eq _ _ (by show c + 1 < 2 ^ 32; omega)]
        simp [ResetTimer.new, min_eq_left hc1]
      show ResetTimer.tickIter false k ((ResetTimer.new t c).tick false).2 = _
      rw [hstep, ih (c + 1) (by omega)]
      congr 1
      omega

theorem randomBoard_testBit (r : Nat) (row col : Fin 5) :
    randomBoard r row col =
      if r.testBit (row.val * 5 + col.val) then 1 else 0 := by
  unfold randomBoard
  rw [Nat.one_shiftLeft, Nat.and_two_pow, Nat.shiftRight_eq_div_pow,
      Nat.mul_div_cancel _ (Nat.two_pow_pos _)]
  cases r.testBit (row.val * 5 + col.val) <;> rfl

theorem randomBoard_zero : randomBoard 0 = deadBoard := by
  funext row col
  simp [randomBoard, deadBoard]

theorem life.done_deadBoard : life.done deadBoard = true := by decide

/-! ## Claim theorems: timer, randomizer, debouncer, complement -/

/-- C6: for a cooldown timer with `total = t > 0` starting at `current = 0`,
the first `t - 1` calls to `tick(false)` return false and the `t`-th returns
true; `tick` increments `current` by 1, clamps it at `total`, returns whether
the timer is now expired, and resets `current` to 0 in the same call when it
returns true and `auto_reset` is true; `reset()` from any `current` sets
`current` to 0, making `finished()` false since `total = t ≠ 0`. -/
theorem cooldown_timer_tick_spec (t : Nat) (ht : 0 < t) (hw : t < 2 ^ 32) :
    (∀ k, k + 1 < t →
      ((ResetTimer.tickIter false k (ResetTimer.new t 0)).tick false).1 = false)
  ∧ ((ResetTimer.tickIter false (t - 1) (ResetTimer.new t 0)).tick false).1 = true
  ∧ (∀ c b, c + 1 < 2 ^ 32 →
        ((ResetTimer.new t c).tick b).1 = (min (c + 1) t == t)
      ∧ ((ResetTimer.new t c).tick b).2.current =
          (if (min (c + 1) t == t) && b then 0 else min (c + 1) t)
      ∧ ((ResetTimer.new t c).tick b).2.total = t)
  ∧ (∀ c, ((ResetTimer.new t c).reset).current = 0
      ∧ ((ResetTimer.new t c).reset).finished = false) := by
  refine ⟨?_, ?_, ?_, ?_⟩
  · intro k hk
    rw [ResetTimer.tickIter_count t 0 k hw (by omega)]
    rw [ResetTimer.tick_eq _ _ (by show 0 + k + 1 < 2 ^ 32; omega)]
    simp only [ResetTimer.new]
    have hmin : min (0 + k + 1) t = k + 1 := by
      rw [min_eq_left (show 0 + k + 1 ≤ t by omega)]
      omega
    rw [hmin]
    simp
    omega
  · rw [ResetTimer.tickIter_count t 0 (t - 1) hw (by omega)]
    rw [ResetTimer.tick_eq _ _ (by show 0 + (t - 1) + 1 < 2 ^ 32; omega)]
    simp only [ResetTimer.new]
    have : min (0 + (t - 1) + 1) t = t := by
      rw [min_eq_left (by omega)]
      omega
    rw [this]
    simp
  · intro c b hc
    rw [ResetTimer.tick_eq _ _ (by show c + 1 < 2 ^ 32; omega)]
    exact ⟨rfl, rfl, rfl⟩
  · intro c
    refine ⟨rfl, ?_⟩
    simp [ResetTimer.new, ResetTimer.reset, ResetTimer.finished]
    omega

/-- C6 witness: concrete run at `t = 5`: the third call returns false, the
fifth returns true, one tick from `current = 3` with `auto_reset = true`
behaves per the formula, and `reset` from 4 yields an unfinished timer. -/
theorem cooldown_timer_tick_spec_witness :
    ((ResetTimer.tickIter false 2 (ResetTimer.new 5 0)).tick false).1 = false
  ∧ ((ResetTimer.tickIter false 4 (ResetTimer.new 5 0)).tick false).1 = true
  ∧ ((ResetTimer.new 5 4).tick true).2.current =
      (if (min (4 + 1) 5 == 5) && true then 0 else min (4 + 1) 5)
  ∧ ((ResetTimer.new 5 4).reset).finished = false := by
  have h := cooldown_timer_tick_spec 5 (by decide) (by decide)
  exact ⟨h.1 2 (by decide), h.2.1, (h.2.2.1 4 true (by decide)).2.1, (h.2.2.2 4).2⟩

/-- C7: the invariant `0 ≤ current ≤ total` (with `total` a u32) is preserved
by `reset` and by `tick` with either `auto_reset` value; `current` never
exceeds `total` even after arbitrarily many extra ticks past expiry; and the
timer is expired exactly when `current = total`, as decided by `finished()`. -/
theorem timer_invariant_preserved (τ : ResetTimer) (h : τ.wf) :
    τ.reset.wf
  ∧ (∀ b, (τ.tick b).2.wf)
  ∧ (∀ b n, (ResetTimer.tickIter b n τ).current ≤ τ.total)
  ∧ (τ.finished = true ↔ τ.current = τ.total) := by
  obtain ⟨hc, ht⟩ := h
  refine ⟨⟨by simp [ResetTimer.reset], by simpa [ResetTimer.reset] using ht⟩, ?_, ?_, ?_⟩
  · intro b
    refine ⟨?_, ?_⟩
    · rw [ResetTimer.tick_total]
      exact τ.tick_current_le b
    · rw [ResetTimer.tick_total]
      exact ht
  · intro b n
    exact ResetTimer.tickIter_le b n τ hc
  · simp [ResetTimer.finished]

/-- C7 witness: the counting timer `⟨5, 3⟩` satisfies the invariant, and so
does its successor after a `tick(true)`. -/
theorem timer_invariant_preserved_witness :
    ((ResetTimer.new 5 3).tick true).2.wf
  ∧ (ResetTimer.tickIter false 9 (ResetTimer.new 5 3)).current ≤ 5 := by
  have h := timer_invariant_preserved (ResetTimer.new 5 3)
    ⟨by decide, by show (5 : Nat) < 2 ^ 32; norm_num⟩
  exact ⟨h.2.1 true, h.2.2.1 false 9⟩

/-- C8: `randomize_state` draws exactly one 32-bit value per call (the RNG
cursor advances by exactly one) and sets all 25 cells from the low 25 bits of
the draw in row-major order — bit `row * 5 + col` gives cell `(row, col)`,
bit 1 mapping to cell value 1 and bit 0 to 0 — and bits 25 through 31 of the
draw have no effect on the resulting board. -/
theorem randomize_one_draw_bit_mapping :
    (∀ (rng : Nat → Nat) (idx : Nat), (randomize_state rng idx).2 = idx + 1)
  ∧ (∀ (rng : Nat → Nat) (idx : Nat) (row col : Fin 5),
      (randomize_state rng idx).1 row col =
        if (rng idx).testBit (row.val * 5 + col.val) then 1 else 0)
  ∧ (∀ r r' : Nat, r % 2 ^ 25 = r' % 2 ^ 25 → randomBoard r = randomBoard r') := by
  refine ⟨fun rng idx => rfl, fun rng idx row col => randomBoard_testBit _ _ _, ?_⟩
  intro r r' h
  funext row col
  rw [randomBoard_testBit, randomBoard_testBit]
  have hlt : row.val * 5 + col.val < 25 := by
    have h1 : row.val < 5 := row.isLt
    have h2 : col.val < 5 := col.isLt
    omega
  have e1 : (r % 2 ^ 25).testBit (row.val * 5 + col.val) = r.testBit (row.val * 5 + col.val) := by
    rw [Nat.testBit_mod_two_pow]
    simp [hlt]
  have e2 : (r' % 2 ^ 25).testBit (row.val * 5 + col.val) = r'.testBit (row.val * 5 + col.val) := by
    rw [Nat.testBit_mod_two_pow]
    simp [hlt]
  rw [← e1, h, e2]

/-- C8 witness: bits 25–31 are irrelevant at the concrete pair
`2 ^ 25 + 1` versus `1` (equal low 25 bits). -/
theorem randomize_one_draw_bit_mapping_witness :
    randomBoard (2 ^ 25 + 1) = randomBoard 1 :=
  randomize_one_draw_bit_mapping.2.2 (2 ^ 25 + 1) 1 (by norm_num)

/-- C9: for both button A (`P0_14`) and button B (`P0_23`), `pressed()`
returns true iff all three consecutive pin samples read the active (grounded)
level, and every call performs exactly three pin reads (the sample cursor
advances by 3) even when an early sample is already inactive. -/
theorem debounced_pressed_three_samples :
    (∀ (samp : Nat → Bool) (i : Nat),
        (pressed_P0_14 samp i).2 = i + 3
      ∧ ((pressed_P0_14 samp i).1 = true ↔
          samp i = true ∧ samp (i + 1) = true ∧ samp (i + 2) = true))
  ∧ (∀ (samp : Nat → Bool) (i : Nat),
        (pressed_P0_23 samp i).2 = i + 3
      ∧ ((pressed_P0_23 samp i).1 = true ↔
          samp i = true ∧ samp (i + 1) = true ∧ samp (i + 2) = true)) := by
  constructor <;> intro samp i <;>
    exact ⟨rfl, by simp [pressed_P0_14, pressed_P0_23, and_assoc]⟩

/-- C9 witness: with a pin whose first sample is inactive, three reads happen
anyway and the call reports not-pressed; with an all-active pin it reports
pressed. -/
theorem debounced_pressed_three_samples_witness :
    (pressed_P0_14 (fun n => n != 0) 0).2 = 3
  ∧ ((pressed_P0_23 (fun _ => true) 0).1 = true ↔
      (true = true ∧ true = true ∧ true = true)) := by
  exact ⟨(debounced_pressed_three_samples.1 (fun n => n != 0) 0).1,
    (debounced_pressed_three_samples.2 (fun _ => true) 0).2⟩

/-- C10: `complement_state` is an involution for every 5×5 board with
arbitrary cell contents; a single application flips the low bit of every
cell; and pressing B on two frames, the cooldown having elapsed before each
press, returns the board to its prior state. -/
theorem complement_involution :
    (∀ s : LEDState, complement_state (complement_state s) = s)
  ∧ (∀ (s : LEDState) (r c : Fin 5),
      (complement_state s r c).testBit 0 = !((s r c).testBit 0))
  ∧ (∀ (rng rng' : Nat → Nat) (s t : Sys),
      s.complement_timer.finished = true →
      t.state = (frameStep rng false true s).state →
      t.complement_timer.finished = true →
      (frameStep rng' false true t).state = s.state) := by
  have hinv : ∀ s : LEDState, complement_state (complement_state s) = s := by
    intro s
    funext r c
    show (s r c ^^^ 1) ^^^ 1 = s r c
    rw [Nat.xor_assoc, Nat.xor_self, Nat.xor_zero]
  have hstate : ∀ (rng : Nat → Nat) (s : Sys), s.complement_timer.finished = true →
      (frameStep rng false true s).state = complement_state s.state := by
    intro rng s hf
    simp [frameStep, branchStep, hf]
  refine ⟨hinv, ?_, ?_⟩
  · intro s r c
    show ((s r c ^^^ 1)).testBit 0 = !((s r c).testBit 0)
    rw [Nat.testBit_xor]
    simp
  · intro rng rng' s t hs hts htf
    rw [hstate rng' t htf, hts, hstate rng s hs, hinv]

/-- C10 witness: pressing B twice from the startup state (cooldown expired
both times, the second system state built explicitly) restores the dead
board. -/
theorem complement_involution_witness :
    (frameStep rngZero false true
      { state := (frameStep rngZero false true deadSys).state,
        reset_timer := ResetTimer.new 5 0,
        complement_timer := ResetTimer.new 5 5,
        rngIdx := 0 }).state = deadSys.state :=
  complement_involution.2.2 rngZero rngZero deadSys
    { state := (frameStep rngZero false true deadSys).state,
      reset_timer := ResetTimer.new 5 0,
      complement_timer := ResetTimer.new 5 5,
      rngIdx := 0 }
    (by decide) rfl (by decide)

/-! ## Claim theorems: frame controller -/

/-- C1: on every frame with button A debounced-pressed — whatever button B
reads and whatever the board is — the dead-reset timer is reset (not ticked),
the board becomes the randomized board of exactly one fresh draw (so it is
neither complemented nor Life-stepped), and the complement timer undergoes
only its unconditional end-of-frame tick. -/
theorem buttonA_randomize_priority (rng : Nat → Nat) (btnB : Bool) (s : Sys) :
    (frameStep rng true btnB s).state = randomBoard (rng s.rngIdx)
  ∧ (frameStep rng true btnB s).rngIdx = s.rngIdx + 1
  ∧ (frameStep rng true btnB s).reset_timer = s.reset_timer.reset
  ∧ (frameStep rng true btnB s).complement_timer = (s.complement_timer.tick false).2 :=
  ⟨rfl, rfl, rfl, rfl⟩

/-- C2: on every frame with A not pressed and B pressed, the dead-reset timer
is reset; if the complement timer is `finished()` the board is complemented
and the complement timer is reset to 0 by the branch; if not finished, the
board is left completely unchanged that frame (only the timers move: the
dead-reset timer is reset and the complement timer gets its frame tick). -/
theorem buttonB_complement_gated (rng : Nat → Nat) (s : Sys) :
    (branchStep rng false true s).reset_timer = s.reset_timer.reset
  ∧ (s.complement_timer.finished = true →
        (branchStep rng false true s).state = complement_state s.state
      ∧ (branchStep rng false true s).complement_timer.current = 0)
  ∧ (s.complement_timer.finished = false →
        (frameStep rng false true s).state = s.state
      ∧ (frameStep rng false true s).reset_timer = s.reset_timer.reset
      ∧ (frameStep rng false true s).complement_timer = (s.complement_timer.tick false).2
      ∧ (frameStep rng false true s).rngIdx = s.rngIdx) := by
  refine ⟨?_, ?_, ?_⟩
  · by_cases hf : s.complement_timer.finished = true <;> simp [branchStep, hf]
  · intro hf
    exact ⟨by simp [branchStep, hf], by simp [branchStep, hf, ResetTimer.reset]⟩
  · intro hf
    refine ⟨?_, ?_, ?_, ?_⟩ <;> simp [frameStep, branchStep, hf]

/-- C2 witness: from the startup state (complement timer expired) a B-press
complements the dead board; from the post-press state (complement timer at 1)
a B-press leaves the board unchanged. -/
theorem buttonB_complement_gated_witness :
    (branchStep rngZero false true deadSys).state = complement_state deadSys.state
  ∧ (frameStep rngZero false true
      { state := deadBoard, reset_timer := ResetTimer.new 5 0,
        complement_timer := ResetTimer.new 5 1, rngIdx := 0 }).state = deadBoard :=
  ⟨((buttonB_complement_gated rngZero deadSys).2.1 (by decide)).1,
   ((buttonB_complement_gated rngZero
      { state := deadBoard, reset_timer := ResetTimer.new 5 0,
        complement_timer := ResetTimer.new 5 1, rngIdx := 0 }).2.2 (by decide)).1⟩

/-- C4: on every frame, regardless of the branch taken, the complement timer
is updated exactly once after the branch resolves, by `tick(auto_reset =
false)`, and nothing else changes after the branch; in the Section-8 scenario
(terminal board, no buttons, dead-reset timer at 4/5, complement timer at
0/5) the frame randomizes the board, resets the fired dead timer, and leaves
the complement timer at `current = 1`. -/
theorem complement_timer_ticked_once_per_frame :
    (∀ (rng : Nat → Nat) (a b : Bool) (s : Sys),
        (frameStep rng a b s).complement_timer =
          ((branchStep rng a b s).complement_timer.tick false).2
      ∧ (frameStep rng a b s).state = (branchStep rng a b s).state
      ∧ (frameStep rng a b s).reset_timer = (branchStep rng a b s).reset_timer
      ∧ (frameStep rng a b s).rngIdx = (branchStep rng a b s).rngIdx)
  ∧ (∀ rng : Nat → Nat,
        (frameStep rng false false scenario8).state = randomBoard (rng 0)
      ∧ (frameStep rng false false scenario8).reset_timer = ResetTimer.new 5 0
      ∧ (frameStep rng false false scenario8).complement_timer = ResetTimer.new 5 1
      ∧ (frameStep rng false false scenario8).rngIdx = 1) :=
  ⟨fun _ _ _ _ => ⟨rfl, rfl, rfl, rfl⟩, fun _ => ⟨rfl, rfl, rfl, rfl⟩⟩

/-- C5: within each frame the decision branch resolves first, then the
complement-timer tick (which never touches the board), and the board handed
to the display sink at the start of the next loop iteration is exactly the
board as it stands after that frame's branch and tick. -/
theorem render_order_within_frame :
    (∀ (rng : Nat → Nat) (btns : Nat → Bool × Bool) (s0 : Sys) (n : Nat),
      renderedBoard rng btns s0 (n + 1) =
        (branchStep rng (btns n).1 (btns n).2 (sysAfter rng btns s0 n)).state)
  ∧ (∀ (rng : Nat → Nat) (a b : Bool) (s : Sys),
      (frameStep rng a b s).state = (branchStep rng a b s).state)
  ∧ (∀ (rng : Nat → Nat) (a b : Bool) (s : Sys),
      (frameStep rng a b s).complement_timer =
        ((branchStep rng a b s).complement_timer.tick false).2) :=
  ⟨fun _ _ _ _ => rfl, fun _ _ _ _ => rfl, fun _ _ _ _ => rfl⟩

/-- One frame on a dead board with no input and an all-zero RNG: the
dead-reset timer advances, firing (and so randomizing, which consumes a draw
and re-deadens the board) exactly when it reaches `total = 5`. -/
theorem deadFrameStep (c i : Nat) (hc : c < 5) :
    frameStep rngZero false false
      { state := deadBoard, reset_timer := ResetTimer.new 5 c,
        complement_timer := ResetTimer.new 5 5, rngIdx := i } =
    (if c = 4 then
      { state := deadBoard, reset_timer := ResetTimer.new 5 0,
        complement_timer := ResetTimer.new 5 5, rngIdx := i + 1 }
    else
      { state := deadBoard, reset_timer := ResetTimer.new 5 (c + 1),
        complement_timer := ResetTimer.new 5 5, rngIdx := i }) := by
  by_cases h4 : c = 4
  · subst h4
    rw [if_pos rfl]
    have h1 : frameStep rngZero false false
        { state := deadBoard, reset_timer := ResetTimer.new 5 4,
          complement_timer := ResetTimer.new 5 5, rngIdx := i } =
        { state := randomBoard 0, reset_timer := ResetTimer.new 5 0,
          complement_timer := ResetTimer.new 5 5, rngIdx := i + 1 } := rfl
    rw [h1, randomBoard_zero]
  · rw [if_neg h4]
    have hmin : min (c + 1) 5 = c + 1 := min_eq_left (by omega)
    have hbeq : (c + 1 == 5) = false := by
      simp only [beq_eq_false_iff_ne, ne_eq]
      omega
    have htick : (ResetTimer.new 5 c).tick true = (false, ResetTimer.new 5 (c + 1)) := by
      rw [ResetTimer.tick_eq _ _ (show (ResetTimer.new 5 c).current + 1 < 2 ^ 32 from by
        show c + 1 < 2 ^ 32; omega)]
      simp only [ResetTimer.new]
      rw [hmin, hbeq]
      simp [ResetTimer.new]
    have hct : (ResetTimer.new 5 5).tick false = (true, ResetTimer.new 5 5) := rfl
    simp [frameStep, branchStep, life.done_deadBoard, htick, hct]

/-- The full no-input dead-board trace: after `n` frames the board is still
dead, the dead-reset timer reads `n % 5`, the complement timer is pinned at
its expired value, and exactly `n / 5` random draws have been consumed. -/
theorem deadTrace (n : Nat) :
    sysAfter rngZero btnsNone deadSys n =
      { state := deadBoard, reset_timer := ResetTimer.new 5 (n % 5),
        complement_timer := ResetTimer.new 5 5, rngIdx := n / 5 } := by
  induction n with
  | zero => rfl
  | succ n ih =>
      show frameStep rngZero false false (sysAfter rngZero btnsNone deadSys n) = _
      rw [ih]
      rw [deadFrameStep (n % 5) (n / 5) (Nat.mod_lt _ (by norm_num))]
      by_cases h4 : n % 5 = 4
      · rw [if_pos h4]
        have e1 : (n + 1) % 5 = 0 := by omega
        have e2 : (n + 1) / 5 = n / 5 + 1 := by omega
        rw [e1, e2]
      · rw [if_neg h4]
        have e1 : (n + 1) % 5 = n % 5 + 1 := by omega
        have e2 : (n + 1) / 5 = n / 5 := by omega
        rw [e1, e2]

/-- C3: on a frame with neither button pressed and a terminal (all-dead)
board, the controller's branch calls `tick(auto_reset = true)` on the
dead-reset timer and randomizes (consuming one draw) exactly when that tick
reports expiry; consequently, under sustained dead boards with no input
(all-zero RNG draws keep the board dead), the board is re-randomized exactly
once every `total = 5` frames, repeatedly: after `n` frames the timer reads
`n % 5` and exactly `n / 5` draws have occurred. -/
theorem dead_board_reset_behavior :
    (∀ (rng : Nat → Nat) (s : Sys), life.done s.state = true →
        (branchStep rng false false s).reset_timer = (s.reset_timer.tick true).2
      ∧ (branchStep rng false false s).state =
          (if (s.reset_timer.tick true).1 then randomBoard (rng s.rngIdx) else s.state)
      ∧ (branchStep rng false false s).rngIdx =
          (if (s.reset_timer.tick true).1 then s.rngIdx + 1 else s.rngIdx)
      ∧ (branchStep rng false false s).complement_timer = s.complement_timer)
  ∧ (∀ n : Nat,
        (sysAfter rngZero btnsNone deadSys n).state = deadBoard
      ∧ (sysAfter rngZero btnsNone deadSys n).reset_timer = ResetTimer.new 5 (n % 5)
      ∧ (sysAfter rngZero btnsNone deadSys n).rngIdx = n / 5) := by
  constructor
  · intro rng s hdone
    by_cases hfire : (s.reset_timer.tick true).1 = true
    · refine ⟨?_, ?_, ?_, ?_⟩ <;> simp [branchStep, hdone, hfire, randomize_state]
    · refine ⟨?_, ?_, ?_, ?_⟩ <;> simp [branchStep, hdone, hfire, randomize_state]
  · intro n
    rw [deadTrace n]
    exact ⟨rfl, rfl, rfl⟩

/-- C3 witness: at the start state the branch stores the ticked timer, and
after 7 no-input dead frames exactly one randomization has happened. -/
theorem dead_board_reset_behavior_witness :
    (branchStep rngZero false false deadSys).reset_timer = (deadSys.reset_timer.tick true).2
  ∧ (sysAfter rngZero btnsNone deadSys 7).rngIdx = 7 / 5 :=
  ⟨(dead_board_reset_behavior.1 rngZero deadSys (by decide)).1,
   (dead_board_reset_behavior.2 7).2.2⟩
